import Mathlib

/-!
Shallow embedding of the core of the cairo_vm.go snapshot: the Felt layer
(pkg/lambdaworks/lambdaworks.go), the relocatable memory model
(pkg/vm/memory, concatenated into pkg/vm/vm_core.go), the operand
computation and deduction functions of the virtual machine
(pkg/vm/vm_core.go), the pedersen and range-check builtin runners, and the
dictionary hints with their dict manager.

Machine integers are modelled as `Nat` with explicit reductions modulo
`2 ^ 64` where Go's `uint`/`uint64` arithmetic wraps, and field elements as
their canonical natural-number value below the Stark prime.  Fallible Go
code (value-plus-error returns, run-time faults such as out-of-range slice
indexing or nil-pointer dereference) is modelled with `Except`/`Option`.
-/

namespace CairoVM

set_option maxRecDepth 4000

/-- The Cairo prime `p = 2^251 + 17·2^192 + 1` (spec §3: the 252-bit field). -/
def PRIME : Nat := 2 ^ 251 + 17 * 2 ^ 192 + 1

/-- One past the largest Go `uint64`/`uint` value: `2^64`. -/
def U64 : Nat := 2 ^ 64

/-- A field element, represented by its canonical value `< PRIME`.
The Go side (pkg/lambdaworks) receives the canonical ("representative")
big-endian limbs of the element across the FFI boundary; `limbs[3]` is the
least-significant 64-bit limb. -/
abbrev Felt := Nat

/-- Limb `i` (0 = most significant) of the four canonical 64-bit limbs of a
felt, as held in `Felt.limbs` on the Go side. -/
def feltLimb (f : Felt) (i : Nat) : Nat := f / 2 ^ (64 * (3 - i)) % U64

/-- Field addition (`lambdaworks.Add`). -/
def feltAdd (a b : Felt) : Felt := (a + b) % PRIME

/-- Field subtraction (`lambdaworks.Sub`). -/
def feltSub (a b : Felt) : Felt := (a + (PRIME - b % PRIME)) % PRIME

/-- Field multiplication (`lambdaworks.Mul`). -/
def feltMul (a b : Felt) : Felt := a * b % PRIME

/-- Multiplicative inverse by Fermat's little theorem (spec §9: division is
modular inverse). -/
def feltInv (a : Felt) : Felt := a ^ (PRIME - 2) % PRIME

/-- Field division (`lambdaworks.Div`). -/
def feltDiv (a b : Felt) : Felt := a * feltInv b % PRIME

/-- `FeltFromUint64` / `From`: embeds a Go `uint64` into the field.  The
argument is first truncated to 64 bits as the Go conversion would be; every
64-bit value is already below `PRIME`. -/
def feltFromUint64 (x : Nat) : Felt := x % U64

/-- `memory.Relocatable`: a segment-relative address (vm_core.go memory
part, lines 395–398). -/
structure Relocatable where
  segmentIndex : Int
  offset : Nat
deriving DecidableEq, Repr

/-- `memory.MaybeRelocatable`: tagged union of a field element (`Int`
wrapper in Go) and an address. -/
inductive MaybeRelocatable where
  | int (f : Felt)
  | rel (r : Relocatable)
deriving DecidableEq, Repr

/-- Errors of the embedded code.  Each constructor corresponds to one error
value (or run-time fault) of the Go source. -/
inductive Err where
  /-- `memory.Get` on an unknown cell (spec §4.4 `UnknownMemoryCell`). -/
  | unknownMemoryCell
  /-- Go run-time fault: slice index out of range. -/
  | indexOutOfRange
  /-- Go run-time fault: method call through a nil pointer. -/
  | nilDereference
  /-- `"Can't add two relocatable values"` / `"RelocatableAdd"`. -/
  | relocatableAdd
  /-- `"Cannot convert felt to u64"` (`Felt.ToU64`). -/
  | cannotConvertFeltToU64
  /-- Range-check `NotAFeltError`. -/
  | notAFelt
  /-- Range-check `OutsideBoundsError` carrying the offending felt. -/
  | rcOutOfBounds (f : Felt)
  /-- `"Dict Error: No dict tracker found for segment %d"`. -/
  | noTrackerForSegment (seg : Int)
  /-- `"Dict Error: Wrong dict pointer supplied. Got %v, expected %v"`. -/
  | wrongDictPointer (got expected : Relocatable)
  /-- Dictionary lookup of an absent key with no default value. -/
  | dictKeyNotFound
  /-- `"Wrong previous value in dict. Got %v, expected %v."` — the first
  field is the current value, the second the supplied previous value,
  matching the order of the Go format arguments. -/
  | wrongPrevValue (current prev : MaybeRelocatable)
  /-- `SubReloctableError`: negative offset after subtraction. -/
  | relocatableSubNegOffset
  /-- Subtracting relocatables of different segments. -/
  | cantSubRelocatablesDifferentSegments
  /-- Subtracting a relocatable from an integer. -/
  | intSubRelocatable
  /-- `"ComputeResRelocatableMul"`. -/
  | computeResRelocatableMul
  /-- `"FailedToComputeDstAddr"`. -/
  | failedToComputeDstAddr
  /-- `"FailedToComputeOp0Addr"`. -/
  | failedToComputeOp0Addr
  /-- `"FailedToComputeOp1Addr"`. -/
  | failedToComputeOp1Addr
  /-- Operand-address computation produced a negative offset. -/
  | negativeOffset
  /-- `op1` address computation found a non-relocatable `op0` value. -/
  | expectedRelocatable
deriving DecidableEq, Repr

/-- `Felt.ToU64` (pkg/lambdaworks/lambdaworks.go lines 99–105): succeeds,
returning the least-significant limb, exactly when the three upper limbs
are zero. -/
def feltToU64 (f : Felt) : Except Err Nat :=
  if feltLimb f 0 = 0 ∧ feltLimb f 1 = 0 ∧ feltLimb f 2 = 0 then
    .ok (feltLimb f 3)
  else
    .error .cannotConvertFeltToU64

/-- `MaybeRelocatable.GetInt` projected to the felt: `some` exactly on the
`Int` variant. -/
def getIntMR (m : MaybeRelocatable) : Option Felt :=
  match m with
  | .int f => some f
  | .rel _ => none

/-- `MaybeRelocatable.GetRelocatable`: `some` exactly on the address
variant. -/
def getRelMR (m : MaybeRelocatable) : Option Relocatable :=
  match m with
  | .int _ => none
  | .rel r => some r

/-- `MaybeRelocatable.IsZero`: an `Int` variant holding zero. -/
def isZeroMR (m : MaybeRelocatable) : Bool :=
  match m with
  | .int f => f == 0
  | .rel _ => false

/-- First-match lookup in an association list (models reading a Go map). -/
def assocGet {α β : Type} [DecidableEq α] (l : List (α × β)) (k : α) : Option β :=
  match l with
  | [] => none
  | (a, b) :: t => if a = k then some b else assocGet t k

/-- In-place update of the first binding of `k`, appending when absent
(models writing a Go map). -/
def assocSet {α β : Type} [DecidableEq α] (l : List (α × β)) (k : α) (v : β) : List (α × β) :=
  match l with
  | [] => [(k, v)]
  | (a, b) :: t => if a = k then (k, v) :: t else (a, b) :: assocSet t k v

/-- The VM memory as a finite map from addresses to cells. -/
abbrev Mem := List (Relocatable × MaybeRelocatable)

/-- Memory lookup; `none` is an unknown cell. -/
def memGet (m : Mem) (a : Relocatable) : Option MaybeRelocatable :=
  assocGet m a

/-- Modelled from the spec: `Memory.GetFelt` (the memory file is not part
of the excerpt; spec §4.4 says `get_felt` additionally asserts the `Felt`
tag, failing otherwise).  `none` covers both the unknown-cell and the
wrong-tag error. -/
def memGetFelt (m : Mem) (a : Relocatable) : Option Felt :=
  match memGet m a with
  | some (.int f) => some f
  | _ => none

/-- `Relocatable.AddFelt` (vm_core.go memory part, lines 408–417): embed
the offset into the field, add, and convert back with `ToU64`; fails when
the resulting offset does not fit in a `uint64`. -/
def relAddFelt (r : Relocatable) (f : Felt) : Except Err Relocatable :=
  let newOffset := feltAdd (feltFromUint64 r.offset) f
  match feltToU64 newOffset with
  | .ok off => .ok ⟨r.segmentIndex, off⟩
  | .error e => .error e

/-- `MaybeRelocatable.AddMaybeRelocatable` (vm_core.go memory part, lines
524–557).  The result `Option` mirrors Go: `some` is a properly
constructed value, `none` is the zero value `MaybeRelocatable{}` that the
address-plus-felt branch returns together with a `nil` error when
`AddFelt` fails (`return MaybeRelocatable{}, nil` on line 542). -/
def addMaybeRelocatable (m other : MaybeRelocatable) :
    Except Err (Option MaybeRelocatable) :=
  match m, other with
  | .int a, .int b => .ok (some (.int (feltAdd a b)))
  | .rel r, .int f =>
    match relAddFelt r f with
    | .ok r' => .ok (some (.rel r'))
    | .error _ => .ok none
  | .int f, .rel r =>
    match relAddFelt r f with
    | .ok r' => .ok (some (.rel r'))
    | .error e => .error e
  | .rel _, .rel _ => .error .relocatableAdd

/-- Modelled from the spec: `MaybeRelocatable.Add`, used by `ComputeRes`
but absent from the excerpt.  Spec §3: `Felt + Felt → Felt`;
`Address + Felt → Address` (requiring the result to fit in an unsigned
integer); `Address + Address` fails. -/
def mrAdd (a b : MaybeRelocatable) : Except Err MaybeRelocatable :=
  match a, b with
  | .int x, .int y => .ok (.int (feltAdd x y))
  | .rel r, .int f =>
    match relAddFelt r f with
    | .ok r' => .ok (.rel r')
    | .error e => .error e
  | .int f, .rel r =>
    match relAddFelt r f with
    | .ok r' => .ok (.rel r')
    | .error e => .error e
  | .rel _, .rel _ => .error .relocatableAdd

/-- Modelled from the spec: `MaybeRelocatable.Sub`, used by the deduction
functions but absent from the excerpt.  Felt − Felt is field subtraction;
Address − Felt lowers the offset (spec §7 `SegmentSubOffset` on
underflow); Address − Address of one segment is the offset difference;
mixed or cross-segment cases fail (spec §7 relocation errors). -/
def mrSub (a b : MaybeRelocatable) : Except Err MaybeRelocatable :=
  match a, b with
  | .int x, .int y => .ok (.int (feltSub x y))
  | .rel r, .int f =>
    match feltToU64 f with
    | .error e => .error e
    | .ok v =>
      if v ≤ r.offset then .ok (.rel ⟨r.segmentIndex, r.offset - v⟩)
      else .error .relocatableSubNegOffset
  | .rel r, .rel r' =>
    if r.segmentIndex = r'.segmentIndex then
      if r'.offset ≤ r.offset then .ok (.int (feltFromUint64 (r.offset - r'.offset)))
      else .error .relocatableSubNegOffset
    else .error .cantSubRelocatablesDifferentSegments
  | .int _, .rel _ => .error .intSubRelocatable

/-- `Relocatable.RelocateAddress` (vm_core.go memory part, lines 428–430):
index the relocation table by the segment and add the offset.  Go panics
on a negative or out-of-range segment index, and its `uint` addition wraps
modulo `2^64`. -/
def relocateAddress (T : List Nat) (r : Relocatable) : Except Err Nat :=
  if 0 ≤ r.segmentIndex ∧ r.segmentIndex.toNat < T.length then
    .ok ((T.getD r.segmentIndex.toNat 0 + r.offset) % U64)
  else
    .error .indexOutOfRange

/-- `MaybeRelocatable.RelocateValue` (vm_core.go memory part, lines
494–506): a felt cell is unchanged; an address cell becomes the felt of
its relocated linear address. -/
def relocateValue (T : List Nat) (m : MaybeRelocatable) : Except Err Felt :=
  match m with
  | .int f => .ok f
  | .rel r =>
    match relocateAddress T r with
    | .ok a => .ok (feltFromUint64 a)
    | .error e => .error e

/-- Register selector for `dst`/`op0` (spec §4.1). -/
inductive Reg where
  | ap
  | fp
deriving DecidableEq, Repr

/-- Base selector for `op1` (spec §4.1/§4.2: `pc`, `op0`, `ap` or `fp`). -/
inductive Op1Src where
  | srcPC
  | srcAP
  | srcFP
  | srcOp0
deriving DecidableEq, Repr

/-- Result logic selector (vm_core.go `ResLogic`). -/
inductive ResLogic where
  | resOp1
  | resAdd
  | resMul
  | resUnconstrained
deriving DecidableEq, Repr

/-- Opcode selector (vm_core.go `Opcode`). -/
inductive Opcode where
  | nop
  | call
  | ret
  | assertEq
deriving DecidableEq, Repr

/-- Modelled from the spec: the decoded instruction (the decoder file is
not part of the excerpt; spec §4.1 lists the slots).  Only the fields the
operand pipeline reads are kept. -/
structure Instruction where
  offDst : Int
  offOp0 : Int
  offOp1 : Int
  dstReg : Reg
  op0Reg : Reg
  op1Src : Op1Src
  resLogic : ResLogic
  opcode : Opcode
  /-- The immediate-following flag (spec §4.1). -/
  imm : Bool
deriving DecidableEq, Repr

/-- `Instruction.Size` — modelled from the spec (§4.1): 2 with an
immediate, else 1. -/
def instructionSize (i : Instruction) : Nat := if i.imm then 2 else 1

/-- `vm.RunContext`: the three registers (spec §3). -/
structure RunContext where
  pc : Relocatable
  ap : Relocatable
  fp : Relocatable
deriving DecidableEq, Repr

/-- Resolve a `dst`/`op0` register selector against the run context. -/
def baseReg (ctx : RunContext) (r : Reg) : Relocatable :=
  match r with
  | .ap => ctx.ap
  | .fp => ctx.fp

/-- Add a biased signed 16-bit offset to an address; a negative resulting
offset is an error (spec §4.2). -/
def applyOffset (r : Relocatable) (off : Int) : Except Err Relocatable :=
  let t : Int := (r.offset : Int) + off
  if 0 ≤ t then .ok ⟨r.segmentIndex, t.toNat⟩ else .error .negativeOffset

/-- Modelled from the spec: `RunContext.ComputeDstAddr` (§4.2):
`dst = base_register + off_dst`. -/
def computeDstAddr (ctx : RunContext) (i : Instruction) : Except Err Relocatable :=
  applyOffset (baseReg ctx i.dstReg) i.offDst

/-- Modelled from the spec: `RunContext.ComputeOp0Addr` (§4.2):
`op0 = base_register + off_op0`. -/
def computeOp0Addr (ctx : RunContext) (i : Instruction) : Except Err Relocatable :=
  applyOffset (baseReg ctx i.op0Reg) i.offOp0

/-- Modelled from the spec: `RunContext.ComputeOp1Addr` (§4.2): base `pc`,
`ap`, `fp`, or the value stored at the `op0` address (which must be a
relocatable), plus `off_op1`. -/
def computeOp1Addr (ctx : RunContext) (i : Instruction)
    (op0 : Option MaybeRelocatable) : Except Err Relocatable :=
  match i.op1Src with
  | .srcPC => applyOffset ctx.pc i.offOp1
  | .srcAP => applyOffset ctx.ap i.offOp1
  | .srcFP => applyOffset ctx.fp i.offOp1
  | .srcOp0 =>
    match op0 with
    | some (.rel r) => applyOffset r i.offOp1
    | _ => .error .expectedRelocatable

/-- `VirtualMachine.ComputeRes` (vm_core.go lines 192–218). -/
def computeRes (i : Instruction) (op0 op1 : MaybeRelocatable) :
    Except Err (Option MaybeRelocatable) :=
  match i.resLogic with
  | .resOp1 => .ok (some op1)
  | .resAdd =>
    match mrAdd op0 op1 with
    | .ok r => .ok (some r)
    | .error e => .error e
  | .resMul =>
    match op0, op1 with
    | .int a, .int b => .ok (some (.int (feltMul a b)))
    | _, _ => .error .computeResRelocatableMul
  | .resUnconstrained => .ok none

/-- `VirtualMachine.DeduceDst` (vm_core.go lines 122–131): `res` for
`AssertEq`, the frame pointer for `Call`, otherwise nothing. -/
def deduceDst (ctx : RunContext) (i : Instruction)
    (res : Option MaybeRelocatable) : Option MaybeRelocatable :=
  match i.opcode with
  | .assertEq => res
  | .call => some (.rel ctx.fp)
  | _ => none

/-- `VirtualMachine.DeduceOp0` (vm_core.go lines 136–164).  The pair is
`(deduced op0, deduced res)`; the error comes from `Sub`.  The `Call`
branch bumps a copy of `pc` by the instruction size with wrapping `uint`
addition. -/
def deduceOp0 (ctx : RunContext) (i : Instruction)
    (dst op1 : Option MaybeRelocatable) :
    Except Err (Option MaybeRelocatable × Option MaybeRelocatable) :=
  match i.opcode with
  | .call =>
    .ok (some (.rel ⟨ctx.pc.segmentIndex, (ctx.pc.offset + instructionSize i) % U64⟩), none)
  | .assertEq =>
    match i.resLogic with
    | .resAdd =>
      match dst, op1 with
      | some d, some o =>
        match mrSub d o with
        | .ok r => .ok (some r, some d)
        | .error e => .error e
      | _, _ => .ok (none, none)
    | .resMul =>
      match dst, op1 with
      | some d, some o =>
        match getIntMR d, getIntMR o with
        | some df, some oF =>
          if oF ≠ 0 then .ok (some (.int (feltDiv df oF)), some d)
          else .ok (none, none)
        | _, _ => .ok (none, none)
      | _, _ => .ok (none, none)
    | _ => .ok (none, none)
  | _ => .ok (none, none)

/-- `VirtualMachine.DeduceOp1` (vm_core.go lines 167–190).  The `ResMul`
branch calls `dst.GetFelt()` and `op0.GetFelt()` with no nil checks
(unlike `ResAdd` here and unlike `DeduceOp0`'s `ResMul` branch), so a
missing `dst` or `op0` is a Go nil-pointer dereference, modelled as
`Err.nilDereference`. -/
def deduceOp1 (i : Instruction) (dst op0 : Option MaybeRelocatable) :
    Except Err (Option MaybeRelocatable × Option MaybeRelocatable) :=
  if i.opcode = .assertEq then
    match i.resLogic with
    | .resOp1 => .ok (dst, dst)
    | .resAdd =>
      match op0, dst with
      | some o, some d =>
        match mrSub d o with
        | .ok r => .ok (some r, some d)
        | .error e => .error e
      | _, _ => .ok (none, none)
    | .resMul =>
      match dst with
      | none => .error .nilDereference
      | some d =>
        match op0 with
        | none => .error .nilDereference
        | some o =>
          match getIntMR d, getIntMR o with
          | some df, some oF =>
            if oF ≠ 0 then .ok (some (.int (feltDiv df oF)), some d)
            else .ok (none, none)
          | _, _ => .ok (none, none)
    | .resUnconstrained => .ok (none, none)
  else .ok (none, none)

/-- `vm.Operands` (vm_core.go lines 84–89). -/
structure Operands where
  dst : MaybeRelocatable
  res : Option MaybeRelocatable
  op0 : MaybeRelocatable
  op1 : MaybeRelocatable
deriving DecidableEq, Repr

/-- Outcome of `ComputeOperands`: a proper result, a named error, or the
Go path `return Operands{}, err` taken when a memory read fails while
`err` still holds the `nil` of the preceding address computation — the
caller sees zero-valued operands and no error. -/
inductive ComputeOperandsResult where
  | ok (ops : Operands)
  | emptyNoErr
  | err (e : Err)
deriving DecidableEq, Repr

/-- `VirtualMachine.ComputeOperands` (vm_core.go lines 220–283).  The
deduction wiring (lines 253–274) is commented out in the source: a missing
operand is never deduced nor written back; instead the early returns hand
back `Operands{}` with the stale `nil` error.  `ComputeRes`'s error is
assigned to `err` on line 251 and never checked, so a failed `res` is
silently `nil`. -/
def computeOperands (i : Instruction) (ctx : RunContext) (mem : Mem) :
    ComputeOperandsResult :=
  match computeDstAddr ctx i with
  | .error _ => .err .failedToComputeDstAddr
  | .ok dstAddr =>
    match memGet mem dstAddr with
    | none => .emptyNoErr
    | some dstOp =>
      match computeOp0Addr ctx i with
      | .error _ => .err .failedToComputeOp0Addr
      | .ok op0Addr =>
        match memGet mem op0Addr with
        | none => .emptyNoErr
        | some op0Op =>
          match computeOp1Addr ctx i (some op0Op) with
          | .error _ => .err .failedToComputeOp1Addr
          | .ok op1Addr =>
            match memGet mem op1Addr with
            | none => .emptyNoErr
            | some op1Op =>
              let res : Option MaybeRelocatable :=
                match computeRes i op0Op op1Op with
                | .ok r => r
                | .error _ => none
              .ok { dst := dstOp, res := res, op0 := op0Op, op1 := op1Op }

/-- Bit-length of a natural number with a structural fuel argument, so
that the kernel can evaluate it on concrete inputs. -/
def bitLenAux : Nat → Nat → Nat
  | 0, _ => 0
  | fuel + 1, n => if n = 0 then 0 else bitLenAux fuel (n / 2) + 1

/-- Modelled from the spec: `Felt.Bits` (the lambdaworks backend behind it
is not part of the excerpt) — the bit-length of the canonical value, 0 for
0.  The fuel 300 exceeds the 256-bit width of any felt. -/
def feltBits (n : Felt) : Nat := bitLenAux 300 n

/-- `RangeCheckValidationRule` (builtins range-check file, lines 130–143):
read the cell, require a felt whose bit-length is at most
`N_PARTS * INNER_RC_BOUND_SHIFT = 8 * 16 = 128`, and return the address as
validated. -/
def rangeCheckValidationRule (mem : Mem) (address : Relocatable) :
    Except Err (List Relocatable) :=
  match memGet mem address with
  | none => .error .unknownMemoryCell
  | some v =>
    match getIntMR v with
    | none => .error .notAFelt
    | some f =>
      if feltBits f ≤ 8 * 16 then .ok [address]
      else .error (.rcOutOfBounds f)

/-- `PedersenBuiltinRunner.DeduceMemoryCell` (builtins pedersen file, lines
41–64), parametrised by the external `starknet_crypto.PedersenHash`.
State is the runner's `verified_addresses` slice, returned alongside the
result.  Faithful points: the guard on line 42 indexes
`verified_addresses[offset]` after the short-circuit `offset % 3 != 2`, a
run-time panic when the slice is too short (a fresh runner's slice is
empty); `numA` is the cell at `offset−1` and `numB` the cell at
`offset−2`, and the hash is called as `PedersenHash(numA, numB)`; after a
successful deduction the address is re-marked `false` on line 59. -/
def pedersenDeduceMemoryCell (hash : Felt → Felt → Felt)
    (verified : List Bool) (address : Relocatable) (mem : Mem) :
    Except Err (Option MaybeRelocatable × List Bool) :=
  if address.offset % 3 ≠ 2 then .ok (none, verified)
  else
    match verified.get? address.offset with
    | none => .error .indexOutOfRange
    | some true => .ok (none, verified)
    | some false =>
      match memGetFelt mem ⟨address.segmentIndex, address.offset - 1⟩ with
      | none => .ok (none, verified)
      | some numA =>
        match memGetFelt mem ⟨address.segmentIndex, address.offset - 2⟩ with
        | none => .ok (none, verified)
        | some numB =>
          let v1 := if verified.length ≤ address.offset then verified ++ [false] else verified
          let v2 := v1.set address.offset false
          .ok (some (.int (hash numA numB)), v2)

/-- `Dictionary` (dict_manager file, lines 81–84): the backing map plus an
optional default value. -/
structure Dictionary where
  entries : List (MaybeRelocatable × MaybeRelocatable)
  defaultValue : Option MaybeRelocatable
deriving DecidableEq, Repr

/-- `NewDefaultDictionary` (dict_manager file, lines 86–91). -/
def newDefaultDictionary (defaultValue : MaybeRelocatable) : Dictionary :=
  { entries := [], defaultValue := some defaultValue }

/-- `NewDictionary` (dict_manager file, lines 93–98). -/
def newDictionary : Dictionary :=
  { entries := [], defaultValue := none }

/-- `Dictionary.Get` (dict_manager file, lines 100–109): a present key is
returned with the map untouched; an absent key returns the default value
after inserting it into the map, or `none` (Go `nil`) leaving the map
unchanged when there is no default. -/
def dictionaryGet (d : Dictionary) (key : MaybeRelocatable) :
    Option MaybeRelocatable × Dictionary :=
  match assocGet d.entries key with
  | some v => (some v, d)
  | none =>
    match d.defaultValue with
    | some dv => (some dv, { d with entries := assocSet d.entries key dv })
    | none => (none, d)

/-- `Dictionary.Insert` (dict_manager file, lines 111–113). -/
def dictionaryInsert (d : Dictionary) (key val : MaybeRelocatable) : Dictionary :=
  { d with entries := assocSet d.entries key val }

/-- `DictTracker` (dict_manager file, lines 49–53). -/
structure DictTracker where
  data : Dictionary
  currentPtr : Relocatable
deriving DecidableEq, Repr

/-- `DictManager.trackers`: segment index to tracker (a Go
`map[int]DictTracker` of tracker values). -/
abbrev DictManager := List (Int × DictTracker)

/-- `DictManager.GetTracker` (dict_manager file, lines 37–46): look the
segment up, then require the supplied pointer to equal the tracker's
`currentPtr`.  Go returns `&tracker` where `tracker` is a copy of the map
entry, so the caller receives a copy whose struct fields are detached from
the manager while the backing `dict` map stays shared. -/
def getTracker (m : DictManager) (dictPtr : Relocatable) : Except Err DictTracker :=
  match assocGet m dictPtr.segmentIndex with
  | none => .error (.noTrackerForSegment dictPtr.segmentIndex)
  | some t =>
    if t.currentPtr ≠ dictPtr then .error (.wrongDictPointer dictPtr t.currentPtr)
    else .ok t

/-- `DICT_ACCESS_SIZE = 3` applied to a pointer with wrapping `uint`
addition. -/
def ptrAdvance (r : Relocatable) : Relocatable :=
  ⟨r.segmentIndex, (r.offset + 3) % U64⟩

/-- `dictRead` (hints dict file, lines 38–64) at the level of the dict
manager state.  `tracker.CurrentPtr.Offset += 3` on line 57 mutates only
the copy returned by `GetTracker`, so the manager's stored pointer is
written back unchanged; the dictionary's backing map is shared with the
copy, so a default-value insertion performed by `Get` does persist.  The
returned value models the write to `ids.value`; an absent key with no
default is the lookup error (spec §7 `DictKeyNotFound`). -/
def dictRead (m : DictManager) (dictPtr : Relocatable) (key : MaybeRelocatable) :
    DictManager × Except Err MaybeRelocatable :=
  match getTracker m dictPtr with
  | .error e => (m, .error e)
  | .ok t =>
    let _advancedCopy := { t with currentPtr := ptrAdvance t.currentPtr }
    let lookup := dictionaryGet t.data key
    let m' := assocSet m dictPtr.segmentIndex { t with data := lookup.2 }
    match lookup.1 with
    | none => (m', .error .dictKeyNotFound)
    | some v => (m', .ok v)

/-- `dictUpdate` (hints dict file, lines 99–136) at the level of the dict
manager state.  The current value is fetched (installing the default for
an absent key of a default dictionary — the backing map is shared, so this
persists); a mismatch with `ids.prev_value` is the
`"Wrong previous value in dict. Got <current>, expected <prev>."` error;
on a match `ids.new_value` is inserted, and the pointer advance of line
134 again hits only the copy, leaving the stored pointer unchanged. -/
def dictUpdate (m : DictManager) (dictPtr : Relocatable)
    (key newValue prevValue : MaybeRelocatable) : DictManager × Option Err :=
  match getTracker m dictPtr with
  | .error e => (m, some e)
  | .ok t =>
    let lookup := dictionaryGet t.data key
    match lookup.1 with
    | none => (assocSet m dictPtr.segmentIndex { t with data := lookup.2 }, some .dictKeyNotFound)
    | some current =>
      if prevValue ≠ current then
        (assocSet m dictPtr.segmentIndex { t with data := lookup.2 },
         some (.wrongPrevValue current prevValue))
      else
        (assocSet m dictPtr.segmentIndex { t with data := dictionaryInsert lookup.2 key newValue },
         none)

/-- The stored pointer of the tracker of a segment, as the next hint's
`GetTracker` would observe it. -/
def managerPtr (m : DictManager) (seg : Int) : Option Relocatable :=
  (assocGet m seg).map (fun t => t.currentPtr)

/-- The stored value bound to `k` in the tracker of a segment. -/
def managerVal (m : DictManager) (seg : Int) (k : MaybeRelocatable) :
    Option (Option MaybeRelocatable) :=
  (assocGet m seg).map (fun t => assocGet t.data.entries k)

/-- A concrete stand-in for the external pedersen hash, used only to
instantiate hash-generic statements. -/
def demoHash : Felt → Felt → Felt := fun a b => feltAdd a (feltMul 2 b)

/-- Pedersen segment contents for one instance: the two input cells of
instance `k = 0` hold the felts 1 and 2. -/
def pedMem : Mem := [(⟨0, 0⟩, .int 1), (⟨0, 1⟩, .int 2)]

/-- An `AssertEq` instruction with res-logic `Op1`, all offsets 0, `dst`
and `op0` on `ap`, `op1` on `fp`, no immediate. -/
def instrAssertEqOp1 : Instruction :=
  { offDst := 0, offOp0 := 0, offOp1 := 0, dstReg := .ap, op0Reg := .ap,
    op1Src := .srcFP, resLogic := .resOp1, opcode := .assertEq, imm := false }

/-- An `AssertEq` instruction with res-logic `Mul`, otherwise like
`instrAssertEqOp1`. -/
def instrAssertEqMul : Instruction :=
  { instrAssertEqOp1 with resLogic := .resMul }

/-- A run context with `pc = (0,0)`, `ap = (1,0)`, `fp = (1,1)`. -/
def ctxDemo : RunContext := ⟨⟨0, 0⟩, ⟨1, 0⟩, ⟨1, 1⟩⟩

/-- A memory whose only cell is the `op1` cell `(1,1) ↦ 7` of
`instrAssertEqOp1` under `ctxDemo`; the `dst` cell `(1,0)` is absent. -/
def memMissingDst : Mem := [(⟨1, 1⟩, .int 7)]

/-- A dict manager with one tracker for segment 0: backing map `{3 ↦ 5}`,
no default value, `currentPtr = (0,0)`. -/
def dmRead : DictManager := [(0, ⟨⟨[(.int 3, .int 5)], none⟩, ⟨0, 0⟩⟩)]

/-- A dict manager with one tracker for segment 0: empty backing map,
default value 5, `currentPtr = (0,0)`. -/
def dmDefault : DictManager := [(0, ⟨⟨[], some (.int 5)⟩, ⟨0, 0⟩⟩)]

/-- A dict manager with one tracker for segment 0: backing map `{1 ↦ 5}`,
no default value, `currentPtr = (0,0)`. -/
def dmPlain : DictManager := [(0, ⟨⟨[(.int 1, .int 5)], none⟩, ⟨0, 0⟩⟩)]

/-- Range-check segment contents: a small felt, a relocatable, and a felt
of 130 bits. -/
def rcMem : Mem := [(⟨2, 0⟩, .int 5), (⟨2, 1⟩, .rel ⟨0, 0⟩), (⟨2, 2⟩, .int (2 ^ 129))]

theorem assocGet_assocSet_self {α β : Type} [DecidableEq α]
    (l : List (α × β)) (k : α) (v : β) : assocGet (assocSet l k v) k = some v := by
  induction l with
  | nil => simp [assocGet, assocSet]
  | cons hd tl ih =>
    obtain ⟨a, b⟩ := hd
    by_cases h : a = k
    · simp [assocGet, assocSet, h]
    · simp [assocGet, assocSet, h, ih]

theorem dictionaryGet_persists (d : Dictionary) (k c : MaybeRelocatable)
    (h : (dictionaryGet d k).1 = some c) :
    assocGet (dictionaryGet d k).2.entries k = some c := by
  unfold dictionaryGet at *
  cases hg : assocGet d.entries k with
  | some v =>
    rw [hg] at h
    simp at h
    simp only [hg, h]
  | none =>
    rw [hg] at h
    cases hd : d.defaultValue with
    | some dv =>
      rw [hd] at h
      simp at h
      simp [hg, hd, ← h, assocGet_assocSet_self]
    | none => rw [hd] at h; simp at h

theorem feltLimbs_high_zero_iff (f : Nat) (h : f < 2 ^ 256) :
    (feltLimb f 0 = 0 ∧ feltLimb f 1 = 0 ∧ feltLimb f 2 = 0) ↔ f < 2 ^ 64 := by
  unfold feltLimb U64
  norm_num at *
  omega

theorem feltToU64_ok_of_lt {x : Nat} (h : x < U64) : feltToU64 x = .ok x := by
  have h256 : x < 2 ^ 256 := lt_of_lt_of_le h (by norm_num [U64])
  have hz := (feltLimbs_high_zero_iff x h256).mpr (by simp [U64] at h; exact h)
  unfold feltToU64
  rw [if_pos hz]
  have hx : x < 2 ^ 64 := by simp [U64] at h; exact h
  have : feltLimb x 3 = x := by
    unfold feltLimb U64
    norm_num
    omega
  rw [this]

theorem feltToU64_error_of_ge {x : Nat} (h256 : x < 2 ^ 256) (h : U64 ≤ x) :
    feltToU64 x = .error .cannotConvertFeltToU64 := by
  unfold feltToU64
  rw [if_neg]
  intro hz
  have hlt := (feltLimbs_high_zero_iff x h256).mp hz
  have hge : 2 ^ 64 ≤ x := by simpa [U64] using h
  omega

/-- C1.  `ComputeOperands` never derives a missing operand: with an
`AssertEq` instruction whose `dst` cell is absent from memory (and whose
`op1` cell holds 7), it returns zero-valued operands with a `nil` error
instead of deducing `dst = res` and writing it back — even though
`DeduceDst` would supply exactly that value.  The deduction wiring of
vm_core.go lines 253–274 is commented out, contradicting the code's own
comments ("this should trigger deducde op1", "uncomment once deduction
functions are done") and spec §4.3/§9(a). -/
theorem c1_computeOperands_skips_deduction :
    computeOperands instrAssertEqOp1 ctxDemo memMissingDst = .emptyNoErr ∧
    deduceDst ctxDemo instrAssertEqOp1 (some (.int 7)) = some (.int 7) :=
  ⟨rfl, rfl⟩

/-- C2.  Pedersen `DeduceMemoryCell`: at an offset not congruent to
2 mod 3 it returns no value (first conjunct, as the claim states); but at
offset `3k+2` with both input cells holding felts and the address never
deduced, a fresh runner (empty `verified_addresses`) faults with an
out-of-range slice index instead of returning a hash (second conjunct),
and even with a long-enough slice the hash is called as
`hash(mem[3k+1], mem[3k])` — arguments swapped relative to the claimed
`pedersen_hash(mem[3k], mem[3k+1])` — and the cell is re-marked not
verified (third conjunct; `pedMem` holds `mem[0] = 1`, `mem[1] = 2`). -/
theorem c2_pedersenDeduceMemoryCell :
    (∀ (hash : Felt → Felt → Felt) (verified : List Bool) (mem : Mem) (a : Relocatable),
       a.offset % 3 ≠ 2 → pedersenDeduceMemoryCell hash verified a mem = .ok (none, verified)) ∧
    (∀ hash : Felt → Felt → Felt,
       pedersenDeduceMemoryCell hash [] ⟨0, 2⟩ pedMem = .error .indexOutOfRange) ∧
    (∀ hash : Felt → Felt → Felt,
       pedersenDeduceMemoryCell hash [false, false, false] ⟨0, 2⟩ pedMem
         = .ok (some (.int (hash 2 1)), [false, false, false])) := by
  refine ⟨?_, fun _ => rfl, fun _ => rfl⟩
  intro hash verified mem a ha
  unfold pedersenDeduceMemoryCell
  rw [if_pos ha]

/-- Witness for C2 at concrete inputs: offset 4 is not congruent to
2 mod 3, and the fresh-runner fault at offset 2. -/
theorem c2_pedersenDeduceMemoryCell_witness :
    pedersenDeduceMemoryCell demoHash [] ⟨0, 4⟩ pedMem = .ok (none, []) ∧
    pedersenDeduceMemoryCell demoHash [] ⟨0, 2⟩ pedMem = .error .indexOutOfRange :=
  ⟨c2_pedersenDeduceMemoryCell.1 demoHash [] pedMem ⟨0, 4⟩ (by decide),
   c2_pedersenDeduceMemoryCell.2.1 demoHash⟩

/-- C3.  `dictRead` on a matching pointer succeeds with the tracker's
value for the key, but the dict manager afterwards is unchanged: the
pointer advance `tracker.CurrentPtr.Offset += 3` hits only the copy that
`GetTracker` returned, so the next hint still observes `current_ptr =
(0,0)` (first two conjuncts), and a subsequent access at the advanced
pointer `(0,3)` fails with the Wrong-dict-pointer error (third conjunct)
instead of matching as the claim requires. -/
theorem c3_dictRead_pointer_not_persisted :
    dictRead dmRead ⟨0, 0⟩ (.int 3) = (dmRead, .ok (.int 5)) ∧
    managerPtr (dictRead dmRead ⟨0, 0⟩ (.int 3)).1 0 = some ⟨0, 0⟩ ∧
    dictRead dmRead ⟨0, 3⟩ (.int 3) = (dmRead, .error (.wrongDictPointer ⟨0, 3⟩ ⟨0, 0⟩)) :=
  ⟨rfl, rfl, rfl⟩

/-- C8.  `Felt.ToU64` succeeds, returning the value itself, exactly when
the canonical value fits in an unsigned 64-bit integer; otherwise it
fails with the conversion error. -/
theorem c8_feltToU64_iff (f : Felt) (hf : f < PRIME) :
    (feltToU64 f = .ok f ↔ f < U64) ∧
    (U64 ≤ f → feltToU64 f = .error .cannotConvertFeltToU64) := by
  have h256 : f < 2 ^ 256 := lt_trans hf (by norm_num [PRIME])
  constructor
  · constructor
    · intro hok
      by_contra hge
      rw [feltToU64_error_of_ge h256 (le_of_not_lt hge)] at hok
      exact Except.noConfusion hok
    · exact fun hlt => feltToU64_ok_of_lt hlt
  · exact fun hge => feltToU64_error_of_ge h256 hge

/-- Witness for C8: 7 converts to itself; `2^64` fails. -/
theorem c8_feltToU64_iff_witness :
    feltToU64 7 = .ok 7 ∧ feltToU64 (2 ^ 64) = .error .cannotConvertFeltToU64 :=
  ⟨(c8_feltToU64_iff 7 (by norm_num [PRIME])).1.mpr (by norm_num [U64]),
   (c8_feltToU64_iff (2 ^ 64) (by norm_num [PRIME])).2 (by norm_num [U64])⟩

/-- C9.  `DeduceOp1` is not total: for an `AssertEq` instruction with
res-logic `Mul`, a missing (`nil`) `dst` — or a present `dst` with a
missing `op0` — reaches `GetFelt` through a nil pointer and faults,
instead of returning no deduction; the `Op1` res-logic branch by contrast
returns `(dst, dst)` for every combination. -/
theorem c9_deduceOp1_nil_fault :
    (∀ op0 : Option MaybeRelocatable,
       deduceOp1 instrAssertEqMul none op0 = .error .nilDereference) ∧
    (∀ d : MaybeRelocatable,
       deduceOp1 instrAssertEqMul (some d) none = .error .nilDereference) ∧
    (∀ dst op0 : Option MaybeRelocatable,
       deduceOp1 instrAssertEqOp1 dst op0 = .ok (dst, dst)) :=
  ⟨fun _ => rfl, fun _ => rfl, fun _ _ => rfl⟩

/-- C4 counterexample.  The claim as stated fails on the code in two
respects.  With a default dictionary (default 5) whose map does not bind
key 1 (third conjunct), `dictUpdate` with `prev = 99` fails with the
Wrong-previous-value message, yet afterwards the map binds key 1 to the
default 5 (first two conjuncts) — the map is not unchanged.  And a
successful update (`prev` equal to the current value 5) leaves the
manager's stored tracker pointer at `(0,0)` (last two conjuncts) — the
advance by 3 hits only the copy of the tracker, so the pointer does not
advance. -/
theorem c4_dictUpdate_counterexample :
    (dictUpdate dmDefault ⟨0, 0⟩ (.int 1) (.int 7) (.int 99)).2
        = some (.wrongPrevValue (.int 5) (.int 99)) ∧
    managerVal (dictUpdate dmDefault ⟨0, 0⟩ (.int 1) (.int 7) (.int 99)).1 0 (.int 1)
        = some (some (.int 5)) ∧
    managerVal dmDefault 0 (.int 1) = some none ∧
    (dictUpdate dmPlain ⟨0, 0⟩ (.int 1) (.int 7) (.int 5)).2 = none ∧
    managerPtr (dictUpdate dmPlain ⟨0, 0⟩ (.int 1) (.int 7) (.int 5)).1 0 = some ⟨0, 0⟩ :=
  ⟨rfl, rfl, rfl, rfl, rfl⟩

/-- C4 amended.  For a tracker whose `currentPtr` matches the supplied
pointer and whose current value for the key is `current` (for a default
dictionary the lookup of an absent key installs the default as the
current value): if `prev` differs from `current`, the hint fails with
`Wrong previous value in dict. Got current, expected prev.`, the stored
pointer is unchanged and the map binds the key to `current` (i.e. it is
unchanged except for the possibly-installed default); if they are equal,
the new value is stored under the key and the stored pointer is again
unchanged — the advance by 3 is applied only to the copy of the tracker
returned by `GetTracker`. -/
theorem c4_dictUpdate_amended
    (m : DictManager) (ptr : Relocatable) (t : DictTracker)
    (key newV prevV current : MaybeRelocatable)
    (ht : assocGet m ptr.segmentIndex = some t)
    (hp : t.currentPtr = ptr)
    (hc : (dictionaryGet t.data key).1 = some current) :
    (prevV ≠ current →
       (dictUpdate m ptr key newV prevV).2 = some (.wrongPrevValue current prevV) ∧
       managerPtr (dictUpdate m ptr key newV prevV).1 ptr.segmentIndex = some t.currentPtr ∧
       managerVal (dictUpdate m ptr key newV prevV).1 ptr.segmentIndex key
         = some (some current)) ∧
    (prevV = current →
       (dictUpdate m ptr key newV prevV).2 = none ∧
       managerPtr (dictUpdate m ptr key newV prevV).1 ptr.segmentIndex = some t.currentPtr ∧
       managerVal (dictUpdate m ptr key newV prevV).1 ptr.segmentIndex key
         = some (some newV)) := by
  have hres := dictionaryGet_persists t.data key current hc
  subst hp
  have hrun : dictUpdate m t.currentPtr key newV prevV =
      (if prevV ≠ current then
        (assocSet m t.currentPtr.segmentIndex { t with data := (dictionaryGet t.data key).2 },
         some (.wrongPrevValue current prevV))
      else
        (assocSet m t.currentPtr.segmentIndex
          { t with data := dictionaryInsert (dictionaryGet t.data key).2 key newV }, none)) := by
    unfold dictUpdate getTracker
    rw [ht]
    simp only [ne_eq, not_true, ite_false, if_neg (fun h : ¬ t.currentPtr = t.currentPtr => h rfl)]
    rw [hc]
  constructor
  · intro hne
    rw [hrun, if_pos hne]
    refine ⟨rfl, ?_, ?_⟩
    · unfold managerPtr
      rw [assocGet_assocSet_self]
      rfl
    · unfold managerVal
      rw [assocGet_assocSet_self]
      simpa using hres
  · intro heq
    rw [hrun, if_neg (by simp [heq])]
    refine ⟨rfl, ?_, ?_⟩
    · unfold managerPtr
      rw [assocGet_assocSet_self]
      rfl
    · unfold managerVal
      rw [assocGet_assocSet_self]
      simp [dictionaryInsert, assocGet_assocSet_self]

/-- Witness for the amended C4, applying it on the two concrete managers
of the counterexample. -/
theorem c4_dictUpdate_amended_witness :
    ((dictUpdate dmDefault ⟨0, 0⟩ (.int 1) (.int 7) (.int 99)).2
        = some (.wrongPrevValue (.int 5) (.int 99)) ∧
     managerPtr (dictUpdate dmDefault ⟨0, 0⟩ (.int 1) (.int 7) (.int 99)).1 0 = some ⟨0, 0⟩ ∧
     managerVal (dictUpdate dmDefault ⟨0, 0⟩ (.int 1) (.int 7) (.int 99)).1 0 (.int 1)
        = some (some (.int 5))) ∧
    ((dictUpdate dmPlain ⟨0, 0⟩ (.int 1) (.int 7) (.int 5)).2 = none ∧
     managerPtr (dictUpdate dmPlain ⟨0, 0⟩ (.int 1) (.int 7) (.int 5)).1 0 = some ⟨0, 0⟩ ∧
     managerVal (dictUpdate dmPlain ⟨0, 0⟩ (.int 1) (.int 7) (.int 5)).1 0 (.int 1)
        = some (some (.int 7))) :=
  ⟨(c4_dictUpdate_amended dmDefault ⟨0, 0⟩ ⟨⟨[], some (.int 5)⟩, ⟨0, 0⟩⟩
      (.int 1) (.int 7) (.int 99) (.int 5) rfl rfl rfl).1 (by decide),
   (c4_dictUpdate_amended dmPlain ⟨0, 0⟩ ⟨⟨[(.int 1, .int 5)], none⟩, ⟨0, 0⟩⟩
      (.int 1) (.int 7) (.int 5) (.int 5) rfl rfl rfl).2 rfl⟩

/-- C5.  The range-check validation rule on a present cell: it returns
exactly the inspected address as validated precisely when the stored felt
has bit-length at most `8 · 16 = 128`; a relocatable value fails with the
not-a-field-element error; a felt of more than 128 bits fails with the
out-of-bounds error. -/
theorem c5_rangeCheckValidationRule (mem : Mem) (addr : Relocatable)
    (f : Felt) (r : Relocatable) :
    (memGet mem addr = some (.int f) →
       (rangeCheckValidationRule mem addr = .ok [addr] ↔ feltBits f ≤ 128)) ∧
    (memGet mem addr = some (.int f) → 128 < feltBits f →
       rangeCheckValidationRule mem addr = .error (.rcOutOfBounds f)) ∧
    (memGet mem addr = some (.rel r) →
       rangeCheckValidationRule mem addr = .error .notAFelt) := by
  refine ⟨?_, ?_, ?_⟩
  · intro h
    unfold rangeCheckValidationRule
    rw [h]
    by_cases hb : feltBits f ≤ 128
    · simp [getIntMR, hb]
    · simp [getIntMR, hb]
  · intro h hb
    unfold rangeCheckValidationRule
    rw [h]
    simp [getIntMR, Nat.not_le.mpr hb]
  · intro h
    unfold rangeCheckValidationRule
    rw [h]
    simp [getIntMR]

/-- Witness for C5 on `rcMem`: the felt 5 validates its address, the
130-bit felt `2^129` is out of bounds, the relocatable is not a field
element. -/
theorem c5_rangeCheckValidationRule_witness :
    rangeCheckValidationRule rcMem ⟨2, 0⟩ = .ok [⟨2, 0⟩] ∧
    rangeCheckValidationRule rcMem ⟨2, 2⟩ = .error (.rcOutOfBounds (2 ^ 129)) ∧
    rangeCheckValidationRule rcMem ⟨2, 1⟩ = .error .notAFelt :=
  ⟨((c5_rangeCheckValidationRule rcMem ⟨2, 0⟩ 5 ⟨0, 0⟩).1 rfl).mpr (by decide),
   (c5_rangeCheckValidationRule rcMem ⟨2, 2⟩ (2 ^ 129) ⟨0, 0⟩).2.1 rfl (by decide),
   (c5_rangeCheckValidationRule rcMem ⟨2, 1⟩ 0 ⟨0, 0⟩).2.2 rfl⟩

/-- C6.  `AddMaybeRelocatable`: two felts give their field sum; two
addresses fail; an address plus a felt gives the address with the offset
increased (in the field) when the result fits in a `uint64` — but on
overflow the `Address + Felt` branch returns the zero value with a `nil`
error (fourth conjunct, the line-542 slip) while the symmetric
`Felt + Address` branch fails as the claim requires (fifth conjunct). -/
theorem c6_addMaybeRelocatable :
    (∀ a b : Felt, addMaybeRelocatable (.int a) (.int b) = .ok (some (.int (feltAdd a b)))) ∧
    (∀ r r' : Relocatable, addMaybeRelocatable (.rel r) (.rel r') = .error .relocatableAdd) ∧
    (∀ (r : Relocatable) (f : Felt),
       feltAdd (feltFromUint64 r.offset) f < U64 →
         addMaybeRelocatable (.rel r) (.int f)
           = .ok (some (.rel ⟨r.segmentIndex, feltAdd (feltFromUint64 r.offset) f⟩)) ∧
         addMaybeRelocatable (.int f) (.rel r)
           = .ok (some (.rel ⟨r.segmentIndex, feltAdd (feltFromUint64 r.offset) f⟩))) ∧
    (addMaybeRelocatable (.rel ⟨0, 0⟩) (.int (2 ^ 64)) = .ok none) ∧
    (addMaybeRelocatable (.int (2 ^ 64)) (.rel ⟨0, 0⟩) = .error .cannotConvertFeltToU64) := by
  refine ⟨fun _ _ => rfl, fun _ _ => rfl, ?_, rfl, rfl⟩
  intro r f hov
  have h := feltToU64_ok_of_lt hov
  constructor <;> simp [addMaybeRelocatable, relAddFelt, h]

/-- Witness for C6's in-range conjunct: `(2,5) + 10 = (2,15)` in both
orders. -/
theorem c6_addMaybeRelocatable_witness :
    addMaybeRelocatable (.rel ⟨2, 5⟩) (.int 10)
      = .ok (some (.rel ⟨2, feltAdd (feltFromUint64 5) 10⟩)) ∧
    addMaybeRelocatable (.int 10) (.rel ⟨2, 5⟩)
      = .ok (some (.rel ⟨2, feltAdd (feltFromUint64 5) 10⟩)) :=
  c6_addMaybeRelocatable.2.2.1 ⟨2, 5⟩ 10 (by decide)

/-- C7.  Relocation: an address `(s, off)` with the segment in range maps
to the linear address `T[s] + off` (given no 64-bit overflow); an address
cell's value becomes the felt of that linear address; a felt cell is
unchanged. -/
theorem c7_relocate (T : List Nat) (s off : Nat) (f : Felt)
    (hs : s < T.length) (hov : T.getD s 0 + off < U64) :
    relocateAddress T ⟨(s : Int), off⟩ = .ok (T.getD s 0 + off) ∧
    relocateValue T (.rel ⟨(s : Int), off⟩) = .ok (T.getD s 0 + off) ∧
    relocateValue T (.int f) = .ok f := by
  have haddr : relocateAddress T ⟨(s : Int), off⟩ = .ok (T.getD s 0 + off) := by
    show (if 0 ≤ ((s : Int)) ∧ ((s : Int)).toNat < T.length then
            Except.ok ((T.getD ((s : Int)).toNat 0 + off) % U64)
          else Except.error Err.indexOutOfRange)
          = Except.ok (T.getD s 0 + off)
    rw [if_pos ⟨Int.natCast_nonneg s, hs⟩]
    exact congrArg Except.ok (Nat.mod_eq_of_lt hov)
  refine ⟨haddr, ?_, rfl⟩
  show (match relocateAddress T ⟨(s : Int), off⟩ with
        | Except.ok a => Except.ok (feltFromUint64 a)
        | Except.error e => Except.error e) = Except.ok (T.getD s 0 + off)
  rw [haddr]
  exact congrArg Except.ok (Nat.mod_eq_of_lt hov)

/-- Witness for C7: with table `[1, 4]`, the address `(1, 2)` relocates
to `6`, as a cell value it becomes the felt 6, and the felt 9 is
unchanged. -/
theorem c7_relocate_witness :
    relocateAddress [1, 4] ⟨(1 : Int), 2⟩ = .ok 6 ∧
    relocateValue [1, 4] (.rel ⟨(1 : Int), 2⟩) = .ok 6 ∧
    relocateValue [1, 4] (.int 9) = .ok 9 :=
  c7_relocate [1, 4] 1 2 9 (by decide) (by decide)

/-- C10.  `Dictionary.Get` is not side-effect free: on an absent key, a
dictionary with a default value returns the default and installs it in
the backing map (so the key is bound from then on), while a dictionary
without a default returns nothing and leaves the map unchanged. -/
theorem c10_dictionaryGet (entries : List (MaybeRelocatable × MaybeRelocatable))
    (dv key : MaybeRelocatable) (habs : assocGet entries key = none) :
    dictionaryGet ⟨entries, some dv⟩ key
        = (some dv, ⟨assocSet entries key dv, some dv⟩) ∧
    assocGet (assocSet entries key dv) key = some dv ∧
    dictionaryGet ⟨entries, none⟩ key = (none, ⟨entries, none⟩) := by
  refine ⟨?_, assocGet_assocSet_self entries key dv, ?_⟩ <;>
    simp [dictionaryGet, habs]

/-- Witness for C10: an empty dictionary with default 5 returns and
installs 5 at key 3; without a default it returns nothing. -/
theorem c10_dictionaryGet_witness :
    dictionaryGet ⟨[], some (.int 5)⟩ (.int 3)
        = (some (.int 5), ⟨[(.int 3, .int 5)], some (.int 5)⟩) ∧
    assocGet (assocSet ([] : List (MaybeRelocatable × MaybeRelocatable)) (.int 3) (.int 5)) (.int 3)
        = some (.int 5) ∧
    dictionaryGet ⟨[], none⟩ (.int 3) = (none, ⟨[], none⟩) :=
  c10_dictionaryGet [] (.int 5) (.int 3) rfl

end CairoVM
